import Mathlib

/-!
Verification development for the `empyrical` data-access module.

The repository has two source files, `data.py` (document-store backend,
namespace `Data` below) and `sqldata.py` (relational-session backend,
namespace `SqlData` below), each exposing three accessors:
`get_single_stock_equity`, `get_single_index_equity`, `get_treasury_data`.

Modelling conventions:
* pandas floating-point cells are modelled as exact rationals; a missing
  cell (NaN / SQL NULL / absent Mongo field) is `none` of `Option ℚ`;
* calendar dates are modelled as naturals (only their order matters);
* the external date sanitizer is opaque, so accessors take the already
  sanitized pair `(lo, hi)`;
* the external store is an explicit argument (`MongoStore` / `SqlStore`);
  a Mongo `find` with a `sort` key is a filter followed by a stable sort,
  a SQLAlchemy query without `order_by` is a filter keeping table order;
* the pandas steps that raise on an empty query result
  (`df.columns = ...` length mismatch, `df['y1']` key error) are modelled
  with `Except.error`;
* `get_main_index()` (the index-name directory) is an association list;
  a `KeyError` from `names.loc[symbol, 'name']` is a failed lookup.
-/

namespace Empyrical

/-- A possibly-missing numeric cell: `none` models pandas NaN / SQL NULL. -/
abbrev Value := Option ℚ

/-- Elementwise `/ 100.0` (`df['change_pct'] = df['change_pct'] / 100.0`);
a missing value stays missing (NaN / 100 is NaN). -/
def divPct (v : Value) : Value := v.map (fun x => x / 100)

/-- `res.fillna(0.0)`: a missing value becomes exactly 0, others unchanged. -/
def fillna0 (v : Value) : Value := some (v.getD 0)

/-- `(a + b) / 2` with pandas NaN propagation: the mean is missing whenever
either operand is missing. Used for the synthesized 2-year tenor. -/
def vmean (a b : Value) : Value := a.bind (fun x => b.map (fun y => (x + y) / 2))

/-- One stored daily record: a calendar day and the raw percent change
(column `涨跌幅`), possibly missing. -/
structure EqDoc where
  date : Nat
  chg : Value
deriving DecidableEq

/-- Date order on daily records, the key of every ascending sort. -/
def dateLe (a b : EqDoc) : Prop := a.date ≤ b.date

instance : DecidableRel dateLe := fun a b => Nat.decLe a.date b.date

instance : IsTotal EqDoc dateLe := ⟨fun a b => Nat.le_total a.date b.date⟩

instance : IsTrans EqDoc dateLe := ⟨fun _ _ _ h1 h2 => Nat.le_trans h1 h2⟩

/-- A returned pandas `Series`: its `name` and its (date, value) rows in
index order. UTC localization only tags the index, so it is not modelled. -/
structure Series where
  name : String
  rows : List (Nat × Value)
deriving DecidableEq

/-- One document of the Mongo treasury collection `国债利率`: a date plus the
sixteen maturity fields of `TREASURY_COL_MAPS`, any of which may be missing. -/
structure TreasuryDoc where
  date : Nat
  m0 : Value
  m1 : Value
  m2 : Value
  m3 : Value
  m6 : Value
  m9 : Value
  y1 : Value
  y3 : Value
  y5 : Value
  y7 : Value
  y10 : Value
  y15 : Value
  y20 : Value
  y30 : Value
  y40 : Value
  y50 : Value
deriving DecidableEq

/-- Date order on treasury documents. -/
def dateLeT (a b : TreasuryDoc) : Prop := a.date ≤ b.date

instance : DecidableRel dateLeT := fun a b => Nat.decLe a.date b.date

instance : IsTotal TreasuryDoc dateLeT := ⟨fun a b => Nat.le_total a.date b.date⟩

instance : IsTrans TreasuryDoc dateLeT := ⟨fun _ _ _ h1 h2 => Nat.le_trans h1 h2⟩

/-- A returned treasury table: (date, row) pairs, each row an ordered list of
(column label, rate) cells. -/
abbrev TreasuryTable := List (Nat × List (String × Value))

/-- The document store of `data.py`: one collection per symbol in the
`wy_stock_daily` and `wy_index_daily` databases, plus the treasury
collection. -/
structure MongoStore where
  stockDb : String → List EqDoc
  indexDb : String → List EqDoc
  treasury : List TreasuryDoc

/-- One row of the relational `StockDaily` / `IndexDaily` tables, restricted
to the three attributes the queries touch. -/
structure SqlEqRow where
  symbol : String
  date : Nat
  chg : Value
deriving DecidableEq

/-- One row of the relational `Treasury` table, restricted to the eleven
attributes selected by `sqldata.get_treasury_data`. -/
structure SqlTreasuryRow where
  date : Nat
  m1 : Value
  m3 : Value
  m6 : Value
  y1 : Value
  y3 : Value
  y5 : Value
  y7 : Value
  y10 : Value
  y20 : Value
  y30 : Value
deriving DecidableEq

/-- The relational store of `sqldata.py` (the `szsh` session's tables). -/
structure SqlStore where
  stockDaily : List SqlEqRow
  indexDaily : List SqlEqRow
  treasury : List SqlTreasuryRow

/-- Inclusive date-range test: Mongo `$gte`/`$lte`, SQLAlchemy `between`. -/
def inRange (lo hi d : Nat) : Bool := decide (lo ≤ d) && decide (d ≤ hi)

/-- The pandas error raised by `df.columns = [...]` on a zero-column frame
(the shape `pd.DataFrame.from_records` gives for an empty query result). -/
def lengthMismatchMsg : String := "ValueError: Length mismatch: Expected axis has 0 elements, new values have 2 elements"

/-- The pandas error raised by `df['y1']` on a zero-column frame. -/
def keyErrorMsg : String := "KeyError: y1"

namespace Data

/-- `data.py query`: Mongo `find` with predicate `日期 ∈ [start, end]`,
projection to (日期, 涨跌幅) and ascending sort on 日期. -/
def query (collection : List EqDoc) (lo hi : Nat) : List EqDoc :=
  List.insertionSort dateLe (collection.filter (fun r => inRange lo hi r.date))

/-- `data.py _get_single_stock_equity`: pick the stock or index collection,
run `query`, relabel the columns (which raises on the empty frame), divide
the percent column by 100, sort the date index, take the series, name it,
and fill missing values with 0.0. -/
def getSingleStockEquityAux (st : MongoStore) (symbol : String) (lo hi : Nat)
    (isIndex : Bool) (indexName : String) : Except String Series :=
  let collection := if isIndex then st.indexDb symbol else st.stockDb symbol
  let df := query collection lo hi
  if df.isEmpty then
    Except.error lengthMismatchMsg
  else
    Except.ok
      { name := indexName
        rows := (List.insertionSort dateLe df).map
          (fun r => (r.date, fillna0 (divPct r.chg))) }

/-- `data.py get_single_stock_equity`: the stock wrapper, which names the
series with the symbol itself. -/
def get_single_stock_equity (st : MongoStore) (symbol : String) (lo hi : Nat) :
    Except String Series :=
  getSingleStockEquityAux st symbol lo hi false symbol

/-- `data.py get_single_index_equity`: resolve the display name through the
`get_main_index()` directory, falling back to the raw symbol on `KeyError`,
then run the shared pipeline on the index database. -/
def get_single_index_equity (mainIndex : List (String × String))
    (st : MongoStore) (symbol : String) (lo hi : Nat) : Except String Series :=
  let indexName := (mainIndex.lookup symbol).getD symbol
  getSingleStockEquityAux st symbol lo hi true indexName

/-- The output row of `data.py get_treasury_data`: the full projection of a
treasury document, with `2year` inserted at frame position 7 (between the
renamed `m9` and `y1` columns) and the codes renamed via
`TREASURY_COL_MAPS`. -/
def treasuryRowM (d : TreasuryDoc) : List (String × Value) :=
  [("cash", d.m0), ("1month", d.m1), ("2month", d.m2), ("3month", d.m3),
   ("6month", d.m6), ("9month", d.m9), ("2year", vmean d.y1 d.y3),
   ("1year", d.y1), ("3year", d.y3), ("5year", d.y5), ("7year", d.y7),
   ("10year", d.y10), ("15year", d.y15), ("20year", d.y20), ("30year", d.y30),
   ("40year", d.y40), ("50year", d.y50)]

/-- `data.py get_treasury_data`: Mongo `find` on the treasury collection,
date-filtered and date-sorted; `df['y1']` raises `KeyError` on the empty
frame; otherwise the 2-year column is synthesized as `(y1 + y3) / 2`,
columns are renamed, and the date index is set and UTC-localized. -/
def get_treasury_data (st : MongoStore) (lo hi : Nat) :
    Except String TreasuryTable :=
  let df := List.insertionSort dateLeT
    (st.treasury.filter (fun r => inRange lo hi r.date))
  if df.isEmpty then Except.error keyErrorMsg
  else Except.ok (df.map (fun d => (d.date, treasuryRowM d)))

/-- Stateful run of the stock accessor: the Mongo `find` only reads, so the
store comes back unchanged. -/
def runStock (st : MongoStore) (symbol : String) (lo hi : Nat) :
    Except String Series × MongoStore :=
  (get_single_stock_equity st symbol lo hi, st)

/-- Stateful run of the index accessor: read-only on the store. -/
def runIndex (mainIndex : List (String × String)) (st : MongoStore)
    (symbol : String) (lo hi : Nat) : Except String Series × MongoStore :=
  (get_single_index_equity mainIndex st symbol lo hi, st)

/-- Stateful run of the treasury accessor: read-only on the store. -/
def runTreasury (st : MongoStore) (lo hi : Nat) :
    Except String TreasuryTable × MongoStore :=
  (get_treasury_data st lo hi, st)

end Data

namespace SqlData

/-- The SELECT of `sqldata`'s equity accessors: filter on the symbol column
and `日期.between(start, end)`. There is no `order_by`, so the session's
row order is preserved. -/
def eqQuery (table : List SqlEqRow) (symbol : String) (lo hi : Nat) :
    List EqDoc :=
  (table.filter (fun r => r.symbol == symbol && inRange lo hi r.date)).map
    (fun r => { date := r.date, chg := r.chg })

/-- `sqldata.py get_single_stock_equity`: query, relabel columns (raises on
the empty frame), percent → fraction, set the date index, name the series
with the symbol and fill missing values with 0.0. -/
def get_single_stock_equity (st : SqlStore) (symbol : String) (lo hi : Nat) :
    Except String Series :=
  let df := eqQuery st.stockDaily symbol lo hi
  if df.isEmpty then Except.error lengthMismatchMsg
  else
    Except.ok
      { name := symbol
        rows := df.map (fun r => (r.date, fillna0 (divPct r.chg))) }

/-- `sqldata.py get_single_index_equity`: same query pipeline on the index
table, named through the `get_main_index()` directory with the `KeyError`
fallback. Unlike every other equity variant it performs no `fillna`. -/
def get_single_index_equity (mainIndex : List (String × String))
    (st : SqlStore) (symbol : String) (lo hi : Nat) : Except String Series :=
  let df := eqQuery st.indexDaily symbol lo hi
  if df.isEmpty then Except.error lengthMismatchMsg
  else
    Except.ok
      { name := (mainIndex.lookup symbol).getD symbol
        rows := df.map (fun r => (r.date, divPct r.chg)) }

/-- The output row of `sqldata.py get_treasury_data`: the ten selected
maturities under their `TREASURY_COLS` labels, with the synthesized `2year`
column appended at the end. -/
def treasuryRowS (r : SqlTreasuryRow) : List (String × Value) :=
  [("1month", r.m1), ("3month", r.m3), ("6month", r.m6), ("1year", r.y1),
   ("3year", r.y3), ("5year", r.y5), ("7year", r.y7), ("10year", r.y10),
   ("20year", r.y20), ("30year", r.y30), ("2year", vmean r.y1 r.y3)]

/-- `sqldata.py get_treasury_data`: select ten maturities date-filtered with
`between` (no `order_by`); relabelling the columns raises on the empty
frame; otherwise `2year` is appended as `(1year + 3year) / 2` and the date
index is set and UTC-localized. -/
def get_treasury_data (st : SqlStore) (lo hi : Nat) :
    Except String TreasuryTable :=
  let df := st.treasury.filter (fun r => inRange lo hi r.date)
  if df.isEmpty then Except.error lengthMismatchMsg
  else Except.ok (df.map (fun r => (r.date, treasuryRowS r)))

/-- Stateful run of the stock accessor: the session query only reads. -/
def runStock (st : SqlStore) (symbol : String) (lo hi : Nat) :
    Except String Series × SqlStore :=
  (get_single_stock_equity st symbol lo hi, st)

/-- Stateful run of the index accessor: read-only on the store. -/
def runIndex (mainIndex : List (String × String)) (st : SqlStore)
    (symbol : String) (lo hi : Nat) : Except String Series × SqlStore :=
  (get_single_index_equity mainIndex st symbol lo hi, st)

/-- Stateful run of the treasury accessor: read-only on the store. -/
def runTreasury (st : SqlStore) (lo hi : Nat) :
    Except String TreasuryTable × SqlStore :=
  (get_treasury_data st lo hi, st)

end SqlData

/-! ### Concrete stores used by witnesses and counterexamples -/

/-- A sample treasury document; its `y7` rate (100) deliberately differs
from the mean of `y5` and `y10` ((12 + 16) / 2 = 14). -/
def wDoc : TreasuryDoc :=
  { date := 7, m0 := some 1, m1 := some 2, m2 := some 3, m3 := some 4,
    m6 := some 5, m9 := some 6, y1 := some 8, y3 := some 10, y5 := some 12,
    y7 := some 100, y10 := some 16, y15 := some 18, y20 := some 20,
    y30 := some 22, y40 := some 24, y50 := some 26 }

/-- The relational counterpart of `wDoc`. -/
def wSqlTr : SqlTreasuryRow :=
  { date := 7, m1 := some 2, m3 := some 4, m6 := some 5, y1 := some 8,
    y3 := some 10, y5 := some 12, y7 := some 100, y10 := some 16,
    y20 := some 20, y30 := some 22 }

/-- A sample document store: stock and index data for symbol `000333`
(one missing raw value each) and one treasury document. -/
def wMongo : MongoStore :=
  { stockDb := fun s => if s = "000333" then
      [{ date := 1, chg := none }, { date := 3, chg := some 5 }] else []
    indexDb := fun s => if s = "000333" then
      [{ date := 2, chg := none }, { date := 4, chg := some 7 }] else []
    treasury := [wDoc] }

/-- The relational store with contents equivalent to `wMongo`. -/
def wSql : SqlStore :=
  { stockDaily := [{ symbol := "000333", date := 1, chg := none },
      { symbol := "000333", date := 3, chg := some 5 }]
    indexDaily := [{ symbol := "000333", date := 2, chg := none },
      { symbol := "000333", date := 4, chg := some 7 }]
    treasury := [wSqlTr] }

/-- A store with no data at all. -/
def emptyMongo : MongoStore :=
  { stockDb := fun _ => [], indexDb := fun _ => [], treasury := [] }

/-- A relational store with no data at all. -/
def emptySql : SqlStore := { stockDaily := [], indexDaily := [], treasury := [] }

/-- A relational store whose stock rows for symbol `A` are not in date
order (nothing in the schema forces them to be). -/
def c5Sql : SqlStore :=
  { stockDaily := [{ symbol := "A", date := 5, chg := some 1 },
      { symbol := "A", date := 3, chg := some 2 }]
    indexDaily := [], treasury := [] }

/-- A document store holding one index row with a missing raw value. -/
def c4Mongo : MongoStore :=
  { stockDb := fun _ => []
    indexDb := fun s => if s = "I" then [{ date := 2, chg := none }] else []
    treasury := [] }

/-- The relational store with contents equivalent to `c4Mongo`. -/
def c4Sql : SqlStore :=
  { stockDaily := []
    indexDaily := [{ symbol := "I", date := 2, chg := none }]
    treasury := [] }


/-- The series `data.py get_single_stock_equity` yields on `wMongo` for
symbol `000333` over `[0, 10]`. -/
def wS1 : Series := { name := "000333", rows := [(1, some 0), (3, some (5/100))] }

/-- The series `data.py get_single_index_equity` (empty directory) yields on
`wMongo` for `000333` over `[0, 10]`. -/
def wS2 : Series := { name := "000333", rows := [(2, some 0), (4, some (7/100))] }

/-- The series `sqldata.py get_single_stock_equity` yields on `wSql`. -/
def wS3 : Series := { name := "000333", rows := [(1, some 0), (3, some (5/100))] }

/-- The series `sqldata.py get_single_index_equity` (empty directory) yields
on `wSql`; note the surviving missing value. -/
def wS4 : Series := { name := "000333", rows := [(2, none), (4, some (7/100))] }


/-- A sample index-name directory (`get_main_index()` result). -/
def wDir : List (String × String) := [("000333", "MIDEA")]

/-- The index series on `wMongo` when the directory resolves the symbol. -/
def wS2n : Series := { name := "MIDEA", rows := [(2, some 0), (4, some (7/100))] }

/-- The relational index series on `wSql` when the directory resolves. -/
def wS4n : Series := { name := "MIDEA", rows := [(2, none), (4, some (7/100))] }

/-! ### Basic lemmas about the embedded pipelines -/

/-- Generic: an insertion sort is empty exactly when its input is. -/
theorem insertionSort_eq_nil_iff {α : Type} (le : α → α → Prop) [DecidableRel le]
    (l : List α) : l.insertionSort le = [] ↔ l = [] := by
  constructor
  · intro h
    have hp := List.perm_insertionSort le l
    rw [h] at hp
    exact hp.symm.eq_nil
  · intro h
    subst h
    rfl

/-- Generic: filtering commutes with mapping when the predicate is read
through the map. -/
theorem filter_map_comm {α β : Type} (f : α → β) (g : β → Bool) (l : List α) :
    (l.map f).filter g = (l.filter (fun a => g (f a))).map f := by
  induction l with
  | nil => rfl
  | cons x xs ih => cases hgx : g (f x) <;> simp [List.filter, hgx, ih]

theorem Data.mem_query {collection : List EqDoc} {lo hi : Nat} {r : EqDoc} :
    r ∈ Data.query collection lo hi ↔
      r ∈ collection ∧ lo ≤ r.date ∧ r.date ≤ hi := by
  unfold Data.query
  rw [List.mem_insertionSort, List.mem_filter]
  simp [inRange]

/-- The collection an aux call reads from. -/
def Data.auxColl (st : MongoStore) (symbol : String) (isIndex : Bool) :
    List EqDoc :=
  if isIndex then st.indexDb symbol else st.stockDb symbol

theorem Data.aux_def (st : MongoStore) (symbol : String) (lo hi : Nat)
    (isIndex : Bool) (indexName : String) :
    Data.getSingleStockEquityAux st symbol lo hi isIndex indexName =
      if (Data.query (Data.auxColl st symbol isIndex) lo hi).isEmpty then
        Except.error lengthMismatchMsg
      else
        Except.ok
          { name := indexName
            rows := (List.insertionSort dateLe
                (Data.query (Data.auxColl st symbol isIndex) lo hi)).map
              (fun r => (r.date, fillna0 (divPct r.chg))) } := by
  unfold Data.getSingleStockEquityAux Data.auxColl
  dsimp only

theorem Data.aux_name {st : MongoStore} {symbol : String} {lo hi : Nat}
    {isIndex : Bool} {indexName : String} {sr : Series}
    (h : Data.getSingleStockEquityAux st symbol lo hi isIndex indexName =
      Except.ok sr) : sr.name = indexName := by
  rw [Data.aux_def] at h
  split at h
  · exact absurd h (by simp)
  · injection h with h
    subst h
    rfl

theorem Data.aux_rows {st : MongoStore} {symbol : String} {lo hi : Nat}
    {isIndex : Bool} {indexName : String} {sr : Series}
    (h : Data.getSingleStockEquityAux st symbol lo hi isIndex indexName =
      Except.ok sr) :
    sr.rows = (List.insertionSort dateLe
        (Data.query (Data.auxColl st symbol isIndex) lo hi)).map
      (fun r => (r.date, fillna0 (divPct r.chg))) := by
  rw [Data.aux_def] at h
  split at h
  · exact absurd h (by simp)
  · injection h with h
    subst h
    rfl

theorem Data.aux_rows_mem {st : MongoStore} {symbol : String} {lo hi : Nat}
    {isIndex : Bool} {indexName : String} {sr : Series} {p : Nat × Value}
    (h : Data.getSingleStockEquityAux st symbol lo hi isIndex indexName =
      Except.ok sr) (hp : p ∈ sr.rows) :
    ∃ d, d ∈ Data.auxColl st symbol isIndex ∧ lo ≤ d.date ∧ d.date ≤ hi ∧
      p = (d.date, fillna0 (divPct d.chg)) := by
  rw [Data.aux_rows h] at hp
  rw [List.mem_map] at hp
  obtain ⟨r, hr, rfl⟩ := hp
  rw [List.mem_insertionSort, Data.mem_query] at hr
  exact ⟨r, hr.1, hr.2.1, hr.2.2, rfl⟩

theorem Data.treasuryM_rows_mem {st : MongoStore} {lo hi : Nat}
    {tbl : TreasuryTable} {p : Nat × List (String × Value)}
    (h : Data.get_treasury_data st lo hi = Except.ok tbl) (hp : p ∈ tbl) :
    ∃ d, d ∈ st.treasury ∧ lo ≤ d.date ∧ d.date ≤ hi ∧
      p = (d.date, Data.treasuryRowM d) := by
  unfold Data.get_treasury_data at h
  dsimp only at h
  split at h
  · exact absurd h (by simp)
  · injection h with h
    subst h
    rw [List.mem_map] at hp
    obtain ⟨r, hr, rfl⟩ := hp
    rw [List.mem_insertionSort, List.mem_filter] at hr
    refine ⟨r, hr.1, ?_, ?_, rfl⟩
    · have := hr.2
      simp [inRange] at this
      exact this.1
    · have := hr.2
      simp [inRange] at this
      exact this.2

theorem SqlData.mem_eqQuery {table : List SqlEqRow} {symbol : String}
    {lo hi : Nat} {d : EqDoc} :
    d ∈ SqlData.eqQuery table symbol lo hi ↔
      ∃ r, r ∈ table ∧ r.symbol = symbol ∧ lo ≤ r.date ∧ r.date ≤ hi ∧
        d = { date := r.date, chg := r.chg } := by
  unfold SqlData.eqQuery
  rw [List.mem_map]
  constructor
  · rintro ⟨r, hr, rfl⟩
    rw [List.mem_filter] at hr
    have h2 := hr.2
    simp [inRange] at h2
    exact ⟨r, hr.1, h2.1, h2.2.1, h2.2.2, rfl⟩
  · rintro ⟨r, hr, hsym, hlo, hhi, rfl⟩
    refine ⟨r, ?_, rfl⟩
    rw [List.mem_filter]
    exact ⟨hr, by simp [inRange, hsym, hlo, hhi]⟩

theorem SqlData.stock_def (st : SqlStore) (symbol : String) (lo hi : Nat) :
    SqlData.get_single_stock_equity st symbol lo hi =
      if (SqlData.eqQuery st.stockDaily symbol lo hi).isEmpty then
        Except.error lengthMismatchMsg
      else
        Except.ok
          { name := symbol
            rows := (SqlData.eqQuery st.stockDaily symbol lo hi).map
              (fun r => (r.date, fillna0 (divPct r.chg))) } := by
  unfold SqlData.get_single_stock_equity
  dsimp only

theorem SqlData.index_def (mainIndex : List (String × String)) (st : SqlStore)
    (symbol : String) (lo hi : Nat) :
    SqlData.get_single_index_equity mainIndex st symbol lo hi =
      if (SqlData.eqQuery st.indexDaily symbol lo hi).isEmpty then
        Except.error lengthMismatchMsg
      else
        Except.ok
          { name := (mainIndex.lookup symbol).getD symbol
            rows := (SqlData.eqQuery st.indexDaily symbol lo hi).map
              (fun r => (r.date, divPct r.chg)) } := by
  unfold SqlData.get_single_index_equity
  dsimp only

theorem SqlData.stock_rows_mem {st : SqlStore} {symbol : String} {lo hi : Nat}
    {sr : Series} {p : Nat × Value}
    (h : SqlData.get_single_stock_equity st symbol lo hi = Except.ok sr)
    (hp : p ∈ sr.rows) :
    ∃ r, r ∈ st.stockDaily ∧ r.symbol = symbol ∧ lo ≤ r.date ∧ r.date ≤ hi ∧
      p = (r.date, fillna0 (divPct r.chg)) := by
  rw [SqlData.stock_def] at h
  split at h
  · exact absurd h (by simp)
  · injection h with h
    subst h
    rw [List.mem_map] at hp
    obtain ⟨d, hd, rfl⟩ := hp
    rw [SqlData.mem_eqQuery] at hd
    obtain ⟨r, hr, hsym, hlo, hhi, rfl⟩ := hd
    exact ⟨r, hr, hsym, hlo, hhi, rfl⟩

theorem SqlData.index_rows_mem {mainIndex : List (String × String)}
    {st : SqlStore} {symbol : String} {lo hi : Nat} {sr : Series}
    {p : Nat × Value}
    (h : SqlData.get_single_index_equity mainIndex st symbol lo hi =
      Except.ok sr) (hp : p ∈ sr.rows) :
    ∃ r, r ∈ st.indexDaily ∧ r.symbol = symbol ∧ lo ≤ r.date ∧ r.date ≤ hi ∧
      p = (r.date, divPct r.chg) := by
  rw [SqlData.index_def] at h
  split at h
  · exact absurd h (by simp)
  · injection h with h
    subst h
    rw [List.mem_map] at hp
    obtain ⟨d, hd, rfl⟩ := hp
    rw [SqlData.mem_eqQuery] at hd
    obtain ⟨r, hr, hsym, hlo, hhi, rfl⟩ := hd
    exact ⟨r, hr, hsym, hlo, hhi, rfl⟩

theorem SqlData.treasuryS_rows_mem {st : SqlStore} {lo hi : Nat}
    {tbl : TreasuryTable} {p : Nat × List (String × Value)}
    (h : SqlData.get_treasury_data st lo hi = Except.ok tbl) (hp : p ∈ tbl) :
    ∃ r, r ∈ st.treasury ∧ lo ≤ r.date ∧ r.date ≤ hi ∧
      p = (r.date, SqlData.treasuryRowS r) := by
  unfold SqlData.get_treasury_data at h
  dsimp only at h
  split at h
  · exact absurd h (by simp)
  · injection h with h
    subst h
    rw [List.mem_map] at hp
    obtain ⟨r, hr, rfl⟩ := hp
    rw [List.mem_filter] at hr
    have h2 := hr.2
    simp [inRange] at h2
    exact ⟨r, hr.1, h2.1, h2.2, rfl⟩

theorem Data.aux_mem_rows {st : MongoStore} {symbol : String} {lo hi : Nat}
    {isIndex : Bool} {indexName : String} {sr : Series} {d : EqDoc}
    (h : Data.getSingleStockEquityAux st symbol lo hi isIndex indexName =
      Except.ok sr)
    (hd : d ∈ Data.auxColl st symbol isIndex) (hlo : lo ≤ d.date)
    (hhi : d.date ≤ hi) : (d.date, fillna0 (divPct d.chg)) ∈ sr.rows := by
  rw [Data.aux_rows h]
  refine List.mem_map_of_mem _ ?_
  rw [List.mem_insertionSort, Data.mem_query]
  exact ⟨hd, hlo, hhi⟩

theorem Data.treasuryM_mem_rows {st : MongoStore} {lo hi : Nat}
    {tbl : TreasuryTable} {d : TreasuryDoc}
    (h : Data.get_treasury_data st lo hi = Except.ok tbl)
    (hd : d ∈ st.treasury) (hlo : lo ≤ d.date) (hhi : d.date ≤ hi) :
    (d.date, Data.treasuryRowM d) ∈ tbl := by
  unfold Data.get_treasury_data at h
  dsimp only at h
  split at h
  · exact absurd h (by simp)
  · injection h with h
    subst h
    refine List.mem_map_of_mem _ ?_
    rw [List.mem_insertionSort, List.mem_filter]
    exact ⟨hd, by simp [inRange, hlo, hhi]⟩

theorem SqlData.stock_mem_rows {st : SqlStore} {symbol : String} {lo hi : Nat}
    {sr : Series} {r : SqlEqRow}
    (h : SqlData.get_single_stock_equity st symbol lo hi = Except.ok sr)
    (hr : r ∈ st.stockDaily) (hsym : r.symbol = symbol) (hlo : lo ≤ r.date)
    (hhi : r.date ≤ hi) : (r.date, fillna0 (divPct r.chg)) ∈ sr.rows := by
  rw [SqlData.stock_def] at h
  split at h
  · exact absurd h (by simp)
  · injection h with h
    subst h
    dsimp only
    rw [List.mem_map]
    refine ⟨{ date := r.date, chg := r.chg }, ?_, rfl⟩
    rw [SqlData.mem_eqQuery]
    exact ⟨r, hr, hsym, hlo, hhi, rfl⟩

theorem SqlData.index_mem_rows {mainIndex : List (String × String)}
    {st : SqlStore} {symbol : String} {lo hi : Nat} {sr : Series} {r : SqlEqRow}
    (h : SqlData.get_single_index_equity mainIndex st symbol lo hi =
      Except.ok sr)
    (hr : r ∈ st.indexDaily) (hsym : r.symbol = symbol) (hlo : lo ≤ r.date)
    (hhi : r.date ≤ hi) : (r.date, divPct r.chg) ∈ sr.rows := by
  rw [SqlData.index_def] at h
  split at h
  · exact absurd h (by simp)
  · injection h with h
    subst h
    dsimp only
    rw [List.mem_map]
    refine ⟨{ date := r.date, chg := r.chg }, ?_, rfl⟩
    rw [SqlData.mem_eqQuery]
    exact ⟨r, hr, hsym, hlo, hhi, rfl⟩

theorem SqlData.treasuryS_mem_rows {st : SqlStore} {lo hi : Nat}
    {tbl : TreasuryTable} {r : SqlTreasuryRow}
    (h : SqlData.get_treasury_data st lo hi = Except.ok tbl)
    (hr : r ∈ st.treasury) (hlo : lo ≤ r.date) (hhi : r.date ≤ hi) :
    (r.date, SqlData.treasuryRowS r) ∈ tbl := by
  unfold SqlData.get_treasury_data at h
  dsimp only at h
  split at h
  · exact absurd h (by simp)
  · injection h with h
    subst h
    refine List.mem_map_of_mem _ ?_
    rw [List.mem_filter]
    exact ⟨hr, by simp [inRange, hlo, hhi]⟩

theorem Data.query_sorted (collection : List EqDoc) (lo hi : Nat) :
    List.Sorted dateLe (Data.query collection lo hi) :=
  List.sorted_insertionSort dateLe _

theorem Data.aux_rows_sorted {st : MongoStore} {symbol : String} {lo hi : Nat}
    {isIndex : Bool} {indexName : String} {sr : Series}
    (hnd : (Data.auxColl st symbol isIndex).Pairwise
      (fun a b : EqDoc => a.date ≠ b.date))
    (h : Data.getSingleStockEquityAux st symbol lo hi isIndex indexName =
      Except.ok sr) :
    sr.rows.Chain' (fun p q : Nat × Value => p.1 < q.1) := by
  rw [Data.aux_rows h]
  have hsorted : (List.insertionSort dateLe
      (Data.query (Data.auxColl st symbol isIndex) lo hi)).Pairwise dateLe :=
    List.sorted_insertionSort dateLe _
  have hneF : ((Data.auxColl st symbol isIndex).filter
      (fun r => inRange lo hi r.date)).Pairwise
      (fun a b : EqDoc => a.date ≠ b.date) :=
    hnd.sublist (List.filter_sublist _)
  have hneQ : (Data.query (Data.auxColl st symbol isIndex) lo hi).Pairwise
      (fun a b : EqDoc => a.date ≠ b.date) :=
    ((List.perm_insertionSort dateLe _).pairwise_iff
      (fun hab => Ne.symm hab)).mpr hneF
  have hneL : (List.insertionSort dateLe
      (Data.query (Data.auxColl st symbol isIndex) lo hi)).Pairwise
      (fun a b : EqDoc => a.date ≠ b.date) :=
    ((List.perm_insertionSort dateLe _).pairwise_iff
      (fun hab => Ne.symm hab)).mpr hneQ
  have hlt : (List.insertionSort dateLe
      (Data.query (Data.auxColl st symbol isIndex) lo hi)).Pairwise
      (fun a b : EqDoc => a.date < b.date) :=
    (hsorted.and hneL).imp (fun hab => lt_of_le_of_ne hab.1 hab.2)
  have hmap : ((List.insertionSort dateLe
      (Data.query (Data.auxColl st symbol isIndex) lo hi)).map
      (fun r => (r.date, fillna0 (divPct r.chg)))).Pairwise
      (fun p q : Nat × Value => p.1 < q.1) := List.pairwise_map.mpr hlt
  exact hmap.chain'

theorem SqlData.stock_rows {st : SqlStore} {symbol : String} {lo hi : Nat}
    {sr : Series}
    (h : SqlData.get_single_stock_equity st symbol lo hi = Except.ok sr) :
    sr.rows = (SqlData.eqQuery st.stockDaily symbol lo hi).map
      (fun r => (r.date, fillna0 (divPct r.chg))) := by
  rw [SqlData.stock_def] at h
  split at h
  · exact absurd h (by simp)
  · injection h with h
    subst h
    rfl

theorem SqlData.index_rows {mainIndex : List (String × String)} {st : SqlStore}
    {symbol : String} {lo hi : Nat} {sr : Series}
    (h : SqlData.get_single_index_equity mainIndex st symbol lo hi =
      Except.ok sr) :
    sr.rows = (SqlData.eqQuery st.indexDaily symbol lo hi).map
      (fun r => (r.date, divPct r.chg)) := by
  rw [SqlData.index_def] at h
  split at h
  · exact absurd h (by simp)
  · injection h with h
    subst h
    rfl

theorem SqlData.eqQuery_pairwise {table : List SqlEqRow} {symbol : String}
    {lo hi : Nat}
    (hs : table.Pairwise (fun a b : SqlEqRow => a.date < b.date)) :
    (SqlData.eqQuery table symbol lo hi).Pairwise
      (fun a b : EqDoc => a.date < b.date) := by
  unfold SqlData.eqQuery
  exact List.pairwise_map.mpr (hs.sublist (List.filter_sublist _))

theorem Data.aux_isOk_indep (st : MongoStore) (symbol : String) (lo hi : Nat)
    (isIndex : Bool) (n1 n2 : String) :
    (Data.getSingleStockEquityAux st symbol lo hi isIndex n1).isOk =
      (Data.getSingleStockEquityAux st symbol lo hi isIndex n2).isOk := by
  rw [Data.aux_def, Data.aux_def]
  split
  · rfl
  · rfl

theorem SqlData.index_isOk_indep (mainIndex mainIndex2 : List (String × String))
    (st : SqlStore) (symbol : String) (lo hi : Nat) :
    (SqlData.get_single_index_equity mainIndex st symbol lo hi).isOk =
      (SqlData.get_single_index_equity mainIndex2 st symbol lo hi).isOk := by
  rw [SqlData.index_def, SqlData.index_def]
  split
  · rfl
  · rfl

/-! ### Claim theorems -/

/-- C1: for every treasury table returned by either backend's
`get_treasury_data`, in every row the `2year` column holds exactly the
arithmetic mean `(1year + 3year) / 2` of that row's `1year` and `3year`
columns (with pandas NaN propagation, as `vmean` states). -/
theorem C1_treasury_two_year_is_mean (mst : MongoStore) (sst : SqlStore)
    (lo hi lo2 hi2 : Nat) (tblM tblS : TreasuryTable)
    (hM : Data.get_treasury_data mst lo hi = Except.ok tblM)
    (hS : SqlData.get_treasury_data sst lo2 hi2 = Except.ok tblS) :
    (∀ p ∈ tblM, ∀ a b : Value, p.2.lookup "1year" = some a →
      p.2.lookup "3year" = some b → p.2.lookup "2year" = some (vmean a b)) ∧
    (∀ p ∈ tblS, ∀ a b : Value, p.2.lookup "1year" = some a →
      p.2.lookup "3year" = some b → p.2.lookup "2year" = some (vmean a b)) := by
  constructor
  · intro p hp a b ha hb
    obtain ⟨d, -, -, -, rfl⟩ := Data.treasuryM_rows_mem hM hp
    rw [show ((d.date, Data.treasuryRowM d).2.lookup "1year") = some d.y1
      from rfl] at ha
    rw [show ((d.date, Data.treasuryRowM d).2.lookup "3year") = some d.y3
      from rfl] at hb
    obtain rfl := Option.some.inj ha
    obtain rfl := Option.some.inj hb
    rfl
  · intro p hp a b ha hb
    obtain ⟨r, -, -, -, rfl⟩ := SqlData.treasuryS_rows_mem hS hp
    rw [show ((r.date, SqlData.treasuryRowS r).2.lookup "1year") = some r.y1
      from rfl] at ha
    rw [show ((r.date, SqlData.treasuryRowS r).2.lookup "3year") = some r.y3
      from rfl] at hb
    obtain rfl := Option.some.inj ha
    obtain rfl := Option.some.inj hb
    rfl

/-- Witness for C1 at the concrete stores `wMongo` / `wSql`. -/
theorem C1_witness :
    (Data.treasuryRowM wDoc).lookup "2year" = some (vmean (some 8) (some 10)) :=
  (C1_treasury_two_year_is_mean wMongo wSql 0 10 0 10
      [(7, Data.treasuryRowM wDoc)] [(7, SqlData.treasuryRowS wSqlTr)] rfl rfl).1
    (7, Data.treasuryRowM wDoc) (List.mem_singleton.mpr rfl)
    (some 8) (some 10) rfl rfl

/-- C6 counterexample: neither backend synthesizes a 7-year column. On the
store `wMongo` / `wSql` the stored `y7` rate is 100, while the mean of the
5-year (12) and 10-year (16) rates is 14; both accessors return the stored
100 unchanged in the `7year` column. -/
theorem C6_counterexample :
    Data.get_treasury_data wMongo 0 10 = Except.ok [(7, Data.treasuryRowM wDoc)] ∧
    SqlData.get_treasury_data wSql 0 10 =
      Except.ok [(7, SqlData.treasuryRowS wSqlTr)] ∧
    (Data.treasuryRowM wDoc).lookup "7year" = some (some 100) ∧
    (SqlData.treasuryRowS wSqlTr).lookup "7year" = some (some 100) ∧
    (Data.treasuryRowM wDoc).lookup "5year" = some (some 12) ∧
    (Data.treasuryRowM wDoc).lookup "10year" = some (some 16) ∧
    vmean (some 12) (some 16) = some ((12 + 16) / 2) ∧
    (some (100 : ℚ) : Value) ≠ some ((12 + 16) / 2) := by
  refine ⟨rfl, rfl, rfl, rfl, rfl, rfl, rfl, ?_⟩
  intro hcon
  have h100 := Option.some.inj hcon
  norm_num at h100

/-- C6 (amended): neither treasury accessor synthesizes a 7-year column;
both read `y7` directly from the store and return it unchanged, and the
only synthesized column is `2year`, the mean of `y1` and `y3`. -/
theorem C6_seven_year_raw (mst : MongoStore) (sst : SqlStore) (lo hi : Nat)
    (tblM tblS : TreasuryTable)
    (hM : Data.get_treasury_data mst lo hi = Except.ok tblM)
    (hS : SqlData.get_treasury_data sst lo hi = Except.ok tblS) :
    (∀ d ∈ mst.treasury, lo ≤ d.date → d.date ≤ hi →
      (d.date, Data.treasuryRowM d) ∈ tblM ∧
      (Data.treasuryRowM d).lookup "7year" = some d.y7 ∧
      (Data.treasuryRowM d).lookup "2year" = some (vmean d.y1 d.y3)) ∧
    (∀ r ∈ sst.treasury, lo ≤ r.date → r.date ≤ hi →
      (r.date, SqlData.treasuryRowS r) ∈ tblS ∧
      (SqlData.treasuryRowS r).lookup "7year" = some r.y7 ∧
      (SqlData.treasuryRowS r).lookup "2year" = some (vmean r.y1 r.y3)) := by
  constructor
  · intro d hd hlo hhi
    exact ⟨Data.treasuryM_mem_rows hM hd hlo hhi, rfl, rfl⟩
  · intro r hr hlo hhi
    exact ⟨SqlData.treasuryS_mem_rows hS hr hlo hhi, rfl, rfl⟩

/-- Witness for the amended C6 at the concrete store `wMongo`. -/
theorem C6_witness :
    ((7 : Nat), Data.treasuryRowM wDoc) ∈ [((7 : Nat), Data.treasuryRowM wDoc)] ∧
    (Data.treasuryRowM wDoc).lookup "7year" = some (some 100) ∧
    (Data.treasuryRowM wDoc).lookup "2year" = some (vmean (some 8) (some 10)) :=
  (C6_seven_year_raw wMongo wSql 0 10 [(7, Data.treasuryRowM wDoc)]
      [(7, SqlData.treasuryRowS wSqlTr)] rfl rfl).1 wDoc
    (List.mem_singleton.mpr rfl) (by decide) (by decide)

/-- C10: in both treasury accessors every returned rate column other than
the synthesized `2year` holds the stored raw value exactly - no division
or other value transformation is applied to treasury rates, only column
renaming, index setting and UTC localization. -/
theorem C10_treasury_frame (mst : MongoStore) (sst : SqlStore) (lo hi : Nat)
    (tblM tblS : TreasuryTable)
    (hM : Data.get_treasury_data mst lo hi = Except.ok tblM)
    (hS : SqlData.get_treasury_data sst lo hi = Except.ok tblS) :
    (∀ d ∈ mst.treasury, lo ≤ d.date → d.date ≤ hi →
      (d.date, Data.treasuryRowM d) ∈ tblM ∧
      (Data.treasuryRowM d).lookup "cash" = some d.m0 ∧
      (Data.treasuryRowM d).lookup "1month" = some d.m1 ∧
      (Data.treasuryRowM d).lookup "2month" = some d.m2 ∧
      (Data.treasuryRowM d).lookup "3month" = some d.m3 ∧
      (Data.treasuryRowM d).lookup "6month" = some d.m6 ∧
      (Data.treasuryRowM d).lookup "9month" = some d.m9 ∧
      (Data.treasuryRowM d).lookup "1year" = some d.y1 ∧
      (Data.treasuryRowM d).lookup "3year" = some d.y3 ∧
      (Data.treasuryRowM d).lookup "5year" = some d.y5 ∧
      (Data.treasuryRowM d).lookup "7year" = some d.y7 ∧
      (Data.treasuryRowM d).lookup "10year" = some d.y10 ∧
      (Data.treasuryRowM d).lookup "15year" = some d.y15 ∧
      (Data.treasuryRowM d).lookup "20year" = some d.y20 ∧
      (Data.treasuryRowM d).lookup "30year" = some d.y30 ∧
      (Data.treasuryRowM d).lookup "40year" = some d.y40 ∧
      (Data.treasuryRowM d).lookup "50year" = some d.y50) ∧
    (∀ r ∈ sst.treasury, lo ≤ r.date → r.date ≤ hi →
      (r.date, SqlData.treasuryRowS r) ∈ tblS ∧
      (SqlData.treasuryRowS r).lookup "1month" = some r.m1 ∧
      (SqlData.treasuryRowS r).lookup "3month" = some r.m3 ∧
      (SqlData.treasuryRowS r).lookup "6month" = some r.m6 ∧
      (SqlData.treasuryRowS r).lookup "1year" = some r.y1 ∧
      (SqlData.treasuryRowS r).lookup "3year" = some r.y3 ∧
      (SqlData.treasuryRowS r).lookup "5year" = some r.y5 ∧
      (SqlData.treasuryRowS r).lookup "7year" = some r.y7 ∧
      (SqlData.treasuryRowS r).lookup "10year" = some r.y10 ∧
      (SqlData.treasuryRowS r).lookup "20year" = some r.y20 ∧
      (SqlData.treasuryRowS r).lookup "30year" = some r.y30) := by
  constructor
  · intro d hd hlo hhi
    exact ⟨Data.treasuryM_mem_rows hM hd hlo hhi, rfl, rfl, rfl, rfl, rfl, rfl,
      rfl, rfl, rfl, rfl, rfl, rfl, rfl, rfl, rfl, rfl⟩
  · intro r hr hlo hhi
    exact ⟨SqlData.treasuryS_mem_rows hS hr hlo hhi, rfl, rfl, rfl, rfl, rfl,
      rfl, rfl, rfl, rfl, rfl⟩

/-- Witness for C10 at the concrete stores `wMongo` / `wSql`. -/
theorem C10_witness :
    ((7 : Nat), SqlData.treasuryRowS wSqlTr) ∈
      [((7 : Nat), SqlData.treasuryRowS wSqlTr)] ∧
    (SqlData.treasuryRowS wSqlTr).lookup "1month" = some (some 2) ∧
    (SqlData.treasuryRowS wSqlTr).lookup "3month" = some (some 4) ∧
    (SqlData.treasuryRowS wSqlTr).lookup "6month" = some (some 5) ∧
    (SqlData.treasuryRowS wSqlTr).lookup "1year" = some (some 8) ∧
    (SqlData.treasuryRowS wSqlTr).lookup "3year" = some (some 10) ∧
    (SqlData.treasuryRowS wSqlTr).lookup "5year" = some (some 12) ∧
    (SqlData.treasuryRowS wSqlTr).lookup "7year" = some (some 100) ∧
    (SqlData.treasuryRowS wSqlTr).lookup "10year" = some (some 16) ∧
    (SqlData.treasuryRowS wSqlTr).lookup "20year" = some (some 20) ∧
    (SqlData.treasuryRowS wSqlTr).lookup "30year" = some (some 22) :=
  (C10_treasury_frame wMongo wSql 0 10 [(7, Data.treasuryRowM wDoc)]
      [(7, SqlData.treasuryRowS wSqlTr)] rfl rfl).2 wSqlTr
    (List.mem_singleton.mpr rfl) (by decide) (by decide)

/-- C2 counterexample: `sqldata.get_single_index_equity` performs no
`fillna`, so a missing raw value survives into the returned series
(row `(2, none)` below), refuting "no value is null in every backend
variant". -/
theorem C2_counterexample :
    SqlData.get_single_index_equity [] wSql "000333" 0 10 = Except.ok wS4 ∧
    ¬ (∀ p ∈ wS4.rows, p.2 ≠ none) := by
  refine ⟨rfl, ?_⟩
  intro hall
  exact hall (2, none) (by simp [wS4]) rfl

/-- C2 (amended): the document-store stock and index accessors and the
relational stock accessor replace every missing raw value with exactly 0.0,
so their returned series contain no null; the relational index accessor
applies no replacement, and a missing raw value is returned as null. -/
theorem C2_null_handling (mainIndex : List (String × String))
    (mst : MongoStore) (sst : SqlStore) (symbol : String) (lo hi : Nat)
    (s1 s2 s3 s4 : Series)
    (h1 : Data.get_single_stock_equity mst symbol lo hi = Except.ok s1)
    (h2 : Data.get_single_index_equity mainIndex mst symbol lo hi =
      Except.ok s2)
    (h3 : SqlData.get_single_stock_equity sst symbol lo hi = Except.ok s3)
    (h4 : SqlData.get_single_index_equity mainIndex sst symbol lo hi =
      Except.ok s4) :
    (∀ p ∈ s1.rows, p.2 ≠ none) ∧
    (∀ p ∈ s2.rows, p.2 ≠ none) ∧
    (∀ p ∈ s3.rows, p.2 ≠ none) ∧
    (∀ d ∈ mst.stockDb symbol, lo ≤ d.date → d.date ≤ hi → d.chg = none →
      (d.date, some 0) ∈ s1.rows) ∧
    (∀ d ∈ mst.indexDb symbol, lo ≤ d.date → d.date ≤ hi → d.chg = none →
      (d.date, some 0) ∈ s2.rows) ∧
    (∀ r ∈ sst.stockDaily, r.symbol = symbol → lo ≤ r.date → r.date ≤ hi →
      r.chg = none → (r.date, some 0) ∈ s3.rows) ∧
    (∀ r ∈ sst.indexDaily, r.symbol = symbol → lo ≤ r.date → r.date ≤ hi →
      r.chg = none → (r.date, none) ∈ s4.rows) := by
  refine ⟨?_, ?_, ?_, ?_, ?_, ?_, ?_⟩
  · intro p hp
    obtain ⟨d, -, -, -, rfl⟩ := Data.aux_rows_mem h1 hp
    simp [fillna0]
  · intro p hp
    obtain ⟨d, -, -, -, rfl⟩ := Data.aux_rows_mem h2 hp
    simp [fillna0]
  · intro p hp
    obtain ⟨r, -, -, -, -, rfl⟩ := SqlData.stock_rows_mem h3 hp
    simp [fillna0]
  · intro d hd hlo hhi hchg
    have hmem := Data.aux_mem_rows h1 hd hlo hhi
    rw [hchg] at hmem
    exact hmem
  · intro d hd hlo hhi hchg
    have hmem := Data.aux_mem_rows h2 hd hlo hhi
    rw [hchg] at hmem
    exact hmem
  · intro r hr hsym hlo hhi hchg
    have hmem := SqlData.stock_mem_rows h3 hr hsym hlo hhi
    rw [hchg] at hmem
    exact hmem
  · intro r hr hsym hlo hhi hchg
    have hmem := SqlData.index_mem_rows h4 hr hsym hlo hhi
    rw [hchg] at hmem
    exact hmem

/-- Witness for the amended C2 at the concrete stores `wMongo` / `wSql`:
the missing raw stock value at date 1 comes back as exactly 0. -/
theorem C2_witness :
    (((1 : Nat), (some 0 : Value)).2 ≠ none) ∧
    ((1 : Nat), (some 0 : Value)) ∈ wS1.rows ∧
    ((2 : Nat), (some 0 : Value)) ∈ wS2.rows ∧
    ((1 : Nat), (some 0 : Value)) ∈ wS3.rows :=
  ⟨(C2_null_handling [] wMongo wSql "000333" 0 10 wS1 wS2 wS3 wS4
      rfl rfl rfl rfl).1 (1, some 0) (by simp [wS1]),
   (C2_null_handling [] wMongo wSql "000333" 0 10 wS1 wS2 wS3 wS4
      rfl rfl rfl rfl).2.2.2.1 { date := 1, chg := none }
     (by simp [wMongo]) (by decide) (by decide) rfl,
   (C2_null_handling [] wMongo wSql "000333" 0 10 wS1 wS2 wS3 wS4
      rfl rfl rfl rfl).2.2.2.2.1 { date := 2, chg := none }
     (by simp [wMongo]) (by decide) (by decide) rfl,
   (C2_null_handling [] wMongo wSql "000333" 0 10 wS1 wS2 wS3 wS4
      rfl rfl rfl rfl).2.2.2.2.2.1 { symbol := "000333", date := 1, chg := none }
     (by simp [wSql]) rfl (by decide) (by decide) rfl⟩

/-- C3 counterexample: on an empty query result every accessor raises
(the empty frame's column relabeling / column access fails) instead of
returning an empty series or table; the last conjunct is a date range
entirely outside the store's coverage. -/
theorem C3_counterexample :
    Data.get_single_stock_equity emptyMongo "000333" 0 10 =
      Except.error lengthMismatchMsg ∧
    Data.get_single_index_equity [] emptyMongo "000333" 0 10 =
      Except.error lengthMismatchMsg ∧
    Data.get_treasury_data emptyMongo 0 10 = Except.error keyErrorMsg ∧
    SqlData.get_single_stock_equity emptySql "000333" 0 10 =
      Except.error lengthMismatchMsg ∧
    SqlData.get_single_index_equity [] emptySql "000333" 0 10 =
      Except.error lengthMismatchMsg ∧
    SqlData.get_treasury_data emptySql 0 10 = Except.error lengthMismatchMsg ∧
    Data.get_single_stock_equity wMongo "000333" 100 200 =
      Except.error lengthMismatchMsg :=
  ⟨rfl, rfl, rfl, rfl, rfl, rfl, rfl⟩

/-- C3 (amended): whenever the store query yields no rows (unknown symbol
or a range outside coverage), each accessor raises an error (modelled as
`Except.error`) rather than returning an empty series or table. -/
theorem C3_empty_query_raises (mainIndex : List (String × String))
    (mst : MongoStore) (sst : SqlStore) (symbol : String) (lo hi : Nat) :
    (Data.query (mst.stockDb symbol) lo hi = [] →
      Data.get_single_stock_equity mst symbol lo hi =
        Except.error lengthMismatchMsg) ∧
    (Data.query (mst.indexDb symbol) lo hi = [] →
      Data.get_single_index_equity mainIndex mst symbol lo hi =
        Except.error lengthMismatchMsg) ∧
    (mst.treasury.filter (fun r => inRange lo hi r.date) = [] →
      Data.get_treasury_data mst lo hi = Except.error keyErrorMsg) ∧
    (SqlData.eqQuery sst.stockDaily symbol lo hi = [] →
      SqlData.get_single_stock_equity sst symbol lo hi =
        Except.error lengthMismatchMsg) ∧
    (SqlData.eqQuery sst.indexDaily symbol lo hi = [] →
      SqlData.get_single_index_equity mainIndex sst symbol lo hi =
        Except.error lengthMismatchMsg) ∧
    (sst.treasury.filter (fun r => inRange lo hi r.date) = [] →
      SqlData.get_treasury_data sst lo hi =
        Except.error lengthMismatchMsg) := by
  refine ⟨?_, ?_, ?_, ?_, ?_, ?_⟩
  · intro h
    show Data.getSingleStockEquityAux mst symbol lo hi false symbol = _
    rw [Data.aux_def]
    have hc : Data.query (Data.auxColl mst symbol false) lo hi = [] := h
    rw [hc]
    rfl
  · intro h
    show Data.getSingleStockEquityAux mst symbol lo hi true
      ((mainIndex.lookup symbol).getD symbol) = _
    rw [Data.aux_def]
    have hc : Data.query (Data.auxColl mst symbol true) lo hi = [] := h
    rw [hc]
    rfl
  · intro h
    unfold Data.get_treasury_data
    dsimp only
    rw [h]
    rfl
  · intro h
    rw [SqlData.stock_def, h]
    rfl
  · intro h
    rw [SqlData.index_def, h]
    rfl
  · intro h
    unfold SqlData.get_treasury_data
    dsimp only
    rw [h]
    rfl

/-- Witness for the amended C3 at the empty stores. -/
theorem C3_witness :
    Data.get_single_stock_equity emptyMongo "X" 0 10 =
      Except.error lengthMismatchMsg ∧
    Data.get_single_index_equity [] emptyMongo "X" 0 10 =
      Except.error lengthMismatchMsg ∧
    Data.get_treasury_data emptyMongo 0 10 = Except.error keyErrorMsg ∧
    SqlData.get_single_stock_equity emptySql "X" 0 10 =
      Except.error lengthMismatchMsg ∧
    SqlData.get_single_index_equity [] emptySql "X" 0 10 =
      Except.error lengthMismatchMsg ∧
    SqlData.get_treasury_data emptySql 0 10 = Except.error lengthMismatchMsg :=
  ⟨(C3_empty_query_raises [] emptyMongo emptySql "X" 0 10).1 rfl,
   (C3_empty_query_raises [] emptyMongo emptySql "X" 0 10).2.1 rfl,
   (C3_empty_query_raises [] emptyMongo emptySql "X" 0 10).2.2.1 rfl,
   (C3_empty_query_raises [] emptyMongo emptySql "X" 0 10).2.2.2.1 rfl,
   (C3_empty_query_raises [] emptyMongo emptySql "X" 0 10).2.2.2.2.1 rfl,
   (C3_empty_query_raises [] emptyMongo emptySql "X" 0 10).2.2.2.2.2 rfl⟩

/-- C8: in all four equity/index accessor variants, every stored in-range
row with a present raw percent value `x` appears in the returned series as
exactly `x / 100` (a change fraction, not a percentage). -/
theorem C8_percent_to_fraction (mainIndex : List (String × String))
    (mst : MongoStore) (sst : SqlStore) (symbol : String) (lo hi : Nat)
    (s1 s2 s3 s4 : Series)
    (h1 : Data.get_single_stock_equity mst symbol lo hi = Except.ok s1)
    (h2 : Data.get_single_index_equity mainIndex mst symbol lo hi =
      Except.ok s2)
    (h3 : SqlData.get_single_stock_equity sst symbol lo hi = Except.ok s3)
    (h4 : SqlData.get_single_index_equity mainIndex sst symbol lo hi =
      Except.ok s4) :
    (∀ d ∈ mst.stockDb symbol, lo ≤ d.date → d.date ≤ hi → ∀ x : ℚ,
      d.chg = some x → (d.date, some (x / 100)) ∈ s1.rows) ∧
    (∀ d ∈ mst.indexDb symbol, lo ≤ d.date → d.date ≤ hi → ∀ x : ℚ,
      d.chg = some x → (d.date, some (x / 100)) ∈ s2.rows) ∧
    (∀ r ∈ sst.stockDaily, r.symbol = symbol → lo ≤ r.date → r.date ≤ hi →
      ∀ x : ℚ, r.chg = some x → (r.date, some (x / 100)) ∈ s3.rows) ∧
    (∀ r ∈ sst.indexDaily, r.symbol = symbol → lo ≤ r.date → r.date ≤ hi →
      ∀ x : ℚ, r.chg = some x → (r.date, some (x / 100)) ∈ s4.rows) := by
  refine ⟨?_, ?_, ?_, ?_⟩
  · intro d hd hlo hhi x hx
    have hmem := Data.aux_mem_rows h1 hd hlo hhi
    rw [hx] at hmem
    exact hmem
  · intro d hd hlo hhi x hx
    have hmem := Data.aux_mem_rows h2 hd hlo hhi
    rw [hx] at hmem
    exact hmem
  · intro r hr hsym hlo hhi x hx
    have hmem := SqlData.stock_mem_rows h3 hr hsym hlo hhi
    rw [hx] at hmem
    exact hmem
  · intro r hr hsym hlo hhi x hx
    have hmem := SqlData.index_mem_rows h4 hr hsym hlo hhi
    rw [hx] at hmem
    exact hmem

/-- Witness for C8 at the concrete stores: the stored raw value 5 at date 3
comes back as 5 / 100. -/
theorem C8_witness : ((3 : Nat), (some ((5 : ℚ) / 100) : Value)) ∈ wS1.rows :=
  (C8_percent_to_fraction [] wMongo wSql "000333" 0 10 wS1 wS2 wS3 wS4
      rfl rfl rfl rfl).1 { date := 3, chg := some 5 }
    (by simp [wMongo]) (by decide) (by decide) 5 rfl

/-- C7: every returned stock series is named with the symbol itself; every
returned index series is named with the display name resolved from the
index-name directory, falling back to the raw symbol when the lookup fails;
and the lookup outcome never changes whether the call succeeds. -/
theorem C7_series_naming (mainIndex mainIndex2 : List (String × String))
    (mst : MongoStore) (sst : SqlStore) (symbol : String) (lo hi : Nat)
    (s1 s2 s3 s4 : Series) :
    (Data.get_single_stock_equity mst symbol lo hi = Except.ok s1 →
      s1.name = symbol) ∧
    (Data.get_single_index_equity mainIndex mst symbol lo hi = Except.ok s2 →
      s2.name = (mainIndex.lookup symbol).getD symbol) ∧
    (mainIndex.lookup symbol = none →
      Data.get_single_index_equity mainIndex mst symbol lo hi = Except.ok s2 →
      s2.name = symbol) ∧
    (SqlData.get_single_stock_equity sst symbol lo hi = Except.ok s3 →
      s3.name = symbol) ∧
    (SqlData.get_single_index_equity mainIndex sst symbol lo hi =
        Except.ok s4 → s4.name = (mainIndex.lookup symbol).getD symbol) ∧
    (mainIndex.lookup symbol = none →
      SqlData.get_single_index_equity mainIndex sst symbol lo hi =
        Except.ok s4 → s4.name = symbol) ∧
    (Data.get_single_index_equity mainIndex mst symbol lo hi).isOk =
      (Data.get_single_index_equity mainIndex2 mst symbol lo hi).isOk ∧
    (SqlData.get_single_index_equity mainIndex sst symbol lo hi).isOk =
      (SqlData.get_single_index_equity mainIndex2 sst symbol lo hi).isOk := by
  refine ⟨?_, ?_, ?_, ?_, ?_, ?_, ?_, ?_⟩
  · intro h
    exact Data.aux_name h
  · intro h
    exact Data.aux_name h
  · intro hnone h
    have hn := Data.aux_name h
    rw [hnone] at hn
    exact hn
  · intro h
    rw [SqlData.stock_def] at h
    split at h
    · exact absurd h (by simp)
    · injection h with h
      subst h
      rfl
  · intro h
    rw [SqlData.index_def] at h
    split at h
    · exact absurd h (by simp)
    · injection h with h
      subst h
      rfl
  · intro hnone h
    rw [SqlData.index_def] at h
    split at h
    · exact absurd h (by simp)
    · injection h with h
      subst h
      dsimp only
      rw [hnone]
      rfl
  · exact Data.aux_isOk_indep mst symbol lo hi true
      ((mainIndex.lookup symbol).getD symbol)
      ((mainIndex2.lookup symbol).getD symbol)
  · exact SqlData.index_isOk_indep mainIndex mainIndex2 sst symbol lo hi

/-- Witness for C7 at the concrete stores, with a resolving directory
(`wDir`) and an empty directory (fallback case). -/
theorem C7_witness :
    wS1.name = "000333" ∧ wS2n.name = "MIDEA" ∧ wS2.name = "000333" ∧
    wS3.name = "000333" ∧ wS4n.name = "MIDEA" ∧
    (Data.get_single_index_equity wDir wMongo "000333" 0 10).isOk =
      (Data.get_single_index_equity [] wMongo "000333" 0 10).isOk :=
  ⟨(C7_series_naming wDir [] wMongo wSql "000333" 0 10 wS1 wS2n wS3 wS4n).1 rfl,
   (C7_series_naming wDir [] wMongo wSql "000333" 0 10 wS1 wS2n wS3 wS4n).2.1
     rfl,
   (C7_series_naming [] wDir wMongo wSql "000333" 0 10 wS1 wS2 wS3 wS4).2.2.1
     rfl rfl,
   (C7_series_naming wDir [] wMongo wSql "000333" 0 10
     wS1 wS2n wS3 wS4n).2.2.2.1 rfl,
   (C7_series_naming wDir [] wMongo wSql "000333" 0 10
     wS1 wS2n wS3 wS4n).2.2.2.2.1 rfl,
   (C7_series_naming wDir [] wMongo wSql "000333" 0 10
     wS1 wS2n wS3 wS4n).2.2.2.2.2.2.1⟩

/-- C9: each accessor, run through its stateful wrapper, leaves the store
unchanged, and a second call with identical arguments on the resulting
store returns the same value - the accessors are deterministic, read-only
functions of their arguments and the store. -/
theorem C9_accessors_pure (mainIndex : List (String × String))
    (mst : MongoStore) (sst : SqlStore) (symbol : String) (lo hi : Nat) :
    ((Data.runStock mst symbol lo hi).2 = mst ∧
      (Data.runStock (Data.runStock mst symbol lo hi).2 symbol lo hi).1 =
        (Data.runStock mst symbol lo hi).1) ∧
    ((Data.runIndex mainIndex mst symbol lo hi).2 = mst ∧
      (Data.runIndex mainIndex (Data.runIndex mainIndex mst symbol lo hi).2
          symbol lo hi).1 =
        (Data.runIndex mainIndex mst symbol lo hi).1) ∧
    ((Data.runTreasury mst lo hi).2 = mst ∧
      (Data.runTreasury (Data.runTreasury mst lo hi).2 lo hi).1 =
        (Data.runTreasury mst lo hi).1) ∧
    ((SqlData.runStock sst symbol lo hi).2 = sst ∧
      (SqlData.runStock (SqlData.runStock sst symbol lo hi).2 symbol lo hi).1 =
        (SqlData.runStock sst symbol lo hi).1) ∧
    ((SqlData.runIndex mainIndex sst symbol lo hi).2 = sst ∧
      (SqlData.runIndex mainIndex
          (SqlData.runIndex mainIndex sst symbol lo hi).2 symbol lo hi).1 =
        (SqlData.runIndex mainIndex sst symbol lo hi).1) ∧
    ((SqlData.runTreasury sst lo hi).2 = sst ∧
      (SqlData.runTreasury (SqlData.runTreasury sst lo hi).2 lo hi).1 =
        (SqlData.runTreasury sst lo hi).1) :=
  ⟨⟨rfl, rfl⟩, ⟨rfl, rfl⟩, ⟨rfl, rfl⟩, ⟨rfl, rfl⟩, ⟨rfl, rfl⟩, ⟨rfl, rfl⟩⟩

/-- C4 counterexample: on logically equivalent stores (`c4Mongo` holds
exactly the rows of `c4Sql`), the two index accessors disagree: the
document backend fills the missing value with 0.0 while the relational
backend returns it as null. -/
theorem C4_counterexample :
    c4Mongo.indexDb "I" =
      (c4Sql.indexDaily.filter (fun r => r.symbol == "I")).map
        (fun r => { date := r.date, chg := r.chg }) ∧
    Data.get_single_index_equity [] c4Mongo "I" 0 10 =
      Except.ok { name := "I", rows := [(2, some 0)] } ∧
    SqlData.get_single_index_equity [] c4Sql "I" 0 10 =
      Except.ok { name := "I", rows := [(2, none)] } ∧
    Data.get_single_index_equity [] c4Mongo "I" 0 10 ≠
      SqlData.get_single_index_equity [] c4Sql "I" 0 10 := by
  refine ⟨rfl, rfl, rfl, ?_⟩
  intro hcon
  rw [show Data.get_single_index_equity [] c4Mongo "I" 0 10 =
      Except.ok { name := "I", rows := [(2, some 0)] } from rfl,
    show SqlData.get_single_index_equity [] c4Sql "I" 0 10 =
      Except.ok { name := "I", rows := [(2, none)] } from rfl] at hcon
  simp at hcon

/-- C4 (amended): the stock accessors of the two backends agree on
logically equivalent store contents whose per-symbol rows are in ascending
date order; the index accessors differ on missing values (no `fillna` in
the relational variant) and the treasury accessors return different column
sets, so full three-accessor equivalence fails. -/
theorem C4_stock_backends_agree (mst : MongoStore) (sst : SqlStore)
    (symbol : String) (lo hi : Nat)
    (heq : mst.stockDb symbol =
      (sst.stockDaily.filter (fun r => r.symbol == symbol)).map
        (fun r => { date := r.date, chg := r.chg }))
    (hsorted : (mst.stockDb symbol).Pairwise dateLe) :
    Data.get_single_stock_equity mst symbol lo hi =
      SqlData.get_single_stock_equity sst symbol lo hi := by
  have hps : Data.query (mst.stockDb symbol) lo hi =
      (mst.stockDb symbol).filter (fun d => inRange lo hi d.date) := by
    unfold Data.query
    exact List.Sorted.insertionSort_eq
      (hsorted.sublist (List.filter_sublist _))
  have hq : Data.query (mst.stockDb symbol) lo hi =
      SqlData.eqQuery sst.stockDaily symbol lo hi := by
    rw [hps, heq, filter_map_comm]
    unfold SqlData.eqQuery
    rw [List.filter_filter]
    congr 1
    apply List.filter_congr
    intro a _
    show (inRange lo hi a.date && (a.symbol == symbol)) =
      ((a.symbol == symbol) && inRange lo hi a.date)
    exact Bool.and_comm _ _
  have hs2 : List.Sorted dateLe (SqlData.eqQuery sst.stockDaily symbol lo hi) := by
    rw [← hq]
    exact Data.query_sorted _ _ _
  show Data.getSingleStockEquityAux mst symbol lo hi false symbol = _
  rw [Data.aux_def]
  have hcoll : Data.auxColl mst symbol false = mst.stockDb symbol := rfl
  rw [hcoll, hq, SqlData.stock_def, List.Sorted.insertionSort_eq hs2]

/-- Witness for the amended C4 at the equivalent stores `wMongo` / `wSql`. -/
theorem C4_witness :
    Data.get_single_stock_equity wMongo "000333" 0 10 =
      SqlData.get_single_stock_equity wSql "000333" 0 10 :=
  C4_stock_backends_agree wMongo wSql "000333" 0 10 rfl
    (by simp [wMongo, List.pairwise_cons, dateLe])

/-- C5 counterexample: nothing sorts in the relational backend (the query
has no ORDER BY and the pipeline never sorts), so on a store whose rows are
not date-ascending the returned series index is not strictly ascending,
even for a valid range `0 ≤ 10`. -/
theorem C5_counterexample :
    (0 : Nat) ≤ 10 ∧
    SqlData.get_single_stock_equity c5Sql "A" 0 10 =
      Except.ok { name := "A", rows := [(5, some (1/100)), (3, some (2/100))] } ∧
    ¬ List.Chain' (fun p q : Nat × Value => p.1 < q.1)
      ([(5, some (1/100)), (3, some (2/100))] : List (Nat × Value)) := by
  refine ⟨by decide, rfl, ?_⟩
  simp [List.chain'_cons]

/-- C5 (amended): every returned date lies within `[start, end]` in both
backends; the document backend always sorts, so its series index is
strictly ascending whenever the stored dates are pairwise distinct; the
relational backend preserves the store's row order, so its index is
strictly ascending only when the store's rows are already date-ascending. -/
theorem C5_dates_sorted_in_range (mainIndex : List (String × String))
    (mst : MongoStore) (sst : SqlStore) (symbol : String) (lo hi : Nat)
    (s1 s2 s3 s4 : Series) (_hrange : lo ≤ hi)
    (h1 : Data.get_single_stock_equity mst symbol lo hi = Except.ok s1)
    (h2 : Data.get_single_index_equity mainIndex mst symbol lo hi =
      Except.ok s2)
    (h3 : SqlData.get_single_stock_equity sst symbol lo hi = Except.ok s3)
    (h4 : SqlData.get_single_index_equity mainIndex sst symbol lo hi =
      Except.ok s4)
    (hnd1 : (mst.stockDb symbol).Pairwise (fun a b : EqDoc => a.date ≠ b.date))
    (hnd2 : (mst.indexDb symbol).Pairwise
      (fun a b : EqDoc => a.date ≠ b.date)) :
    (s1.rows.Chain' (fun p q : Nat × Value => p.1 < q.1) ∧
      ∀ p ∈ s1.rows, lo ≤ p.1 ∧ p.1 ≤ hi) ∧
    (s2.rows.Chain' (fun p q : Nat × Value => p.1 < q.1) ∧
      ∀ p ∈ s2.rows, lo ≤ p.1 ∧ p.1 ≤ hi) ∧
    (∀ p ∈ s3.rows, lo ≤ p.1 ∧ p.1 ≤ hi) ∧
    (∀ p ∈ s4.rows, lo ≤ p.1 ∧ p.1 ≤ hi) ∧
    (sst.stockDaily.Pairwise (fun a b : SqlEqRow => a.date < b.date) →
      s3.rows.Chain' (fun p q : Nat × Value => p.1 < q.1)) ∧
    (sst.indexDaily.Pairwise (fun a b : SqlEqRow => a.date < b.date) →
      s4.rows.Chain' (fun p q : Nat × Value => p.1 < q.1)) := by
  refine ⟨⟨Data.aux_rows_sorted (show (Data.auxColl mst symbol false).Pairwise
      (fun a b : EqDoc => a.date ≠ b.date) from hnd1) h1, ?_⟩,
    ⟨Data.aux_rows_sorted (show (Data.auxColl mst symbol true).Pairwise
      (fun a b : EqDoc => a.date ≠ b.date) from hnd2) h2, ?_⟩, ?_, ?_, ?_, ?_⟩
  · intro p hp
    obtain ⟨d, -, hlo, hhi, rfl⟩ := Data.aux_rows_mem h1 hp
    exact ⟨hlo, hhi⟩
  · intro p hp
    obtain ⟨d, -, hlo, hhi, rfl⟩ := Data.aux_rows_mem h2 hp
    exact ⟨hlo, hhi⟩
  · intro p hp
    obtain ⟨r, -, -, hlo, hhi, rfl⟩ := SqlData.stock_rows_mem h3 hp
    exact ⟨hlo, hhi⟩
  · intro p hp
    obtain ⟨r, -, -, hlo, hhi, rfl⟩ := SqlData.index_rows_mem h4 hp
    exact ⟨hlo, hhi⟩
  · intro hs
    rw [SqlData.stock_rows h3]
    have hmap : ((SqlData.eqQuery sst.stockDaily symbol lo hi).map
        (fun r => (r.date, fillna0 (divPct r.chg)))).Pairwise
        (fun p q : Nat × Value => p.1 < q.1) :=
      List.pairwise_map.mpr (SqlData.eqQuery_pairwise hs)
    exact hmap.chain'
  · intro hs
    rw [SqlData.index_rows h4]
    have hmap : ((SqlData.eqQuery sst.indexDaily symbol lo hi).map
        (fun r => (r.date, divPct r.chg))).Pairwise
        (fun p q : Nat × Value => p.1 < q.1) :=
      List.pairwise_map.mpr (SqlData.eqQuery_pairwise hs)
    exact hmap.chain'

/-- Witness for the amended C5 at the concrete stores. -/
theorem C5_witness :
    List.Chain' (fun p q : Nat × Value => p.1 < q.1) wS1.rows ∧
    ((0 : Nat) ≤ 1 ∧ (1 : Nat) ≤ 10) :=
  ⟨(C5_dates_sorted_in_range [] wMongo wSql "000333" 0 10 wS1 wS2 wS3 wS4
      (by decide) rfl rfl rfl rfl
      (by simp [wMongo, List.pairwise_cons])
      (by simp [wMongo, List.pairwise_cons])).1.1,
   (C5_dates_sorted_in_range [] wMongo wSql "000333" 0 10 wS1 wS2 wS3 wS4
      (by decide) rfl rfl rfl rfl
      (by simp [wMongo, List.pairwise_cons])
      (by simp [wMongo, List.pairwise_cons])).1.2 (1, some 0) (by simp [wS1])⟩

end Empyrical
